import Mathlib

/-!
# Verification of the CHIP-8 interpreter core (`src/chip8.c`)

This file gives a shallow embedding of the interpreter in `src/chip8.c`
(`processor_cycle` and the state it mutates) and proves properties of the
embedding.

Modelling conventions:
* `uint8_t` fields are `Fin 256`, `uint16_t` fields are `Fin 65536`;
  C's implicit conversion of an `int` arithmetic result back into such a
  field is written `toU8` / `toU16` (reduction mod 2^8 / 2^16).
* C integer promotion means arithmetic such as `V[x] + V[y]` and the
  comparison `(V[x] + V[y]) < V[x]` happen on mathematical integers
  (here `Nat`): no wrap occurs until a result is stored back into a
  `uint8_t`/`uint16_t` lvalue.
* `uint8_t` subtraction results assigned back to a register are
  `(a + 256 - b) % 256`, the value of the C `int` difference reduced
  mod 2^8 (for `a b < 256`).
* Accesses to the 4096-byte `mem` array are guarded: `readMem`/`writeMem`
  return `none` for an index outside the array, so one interpreter step is
  `step : Nat → Chip8State → Option StepResult`, with `none` marking an
  out-of-bounds access (undefined behaviour in the C program).  The `Nat`
  argument is the value returned by `rand()` in opcode `CXNN`.
* The fatal `exit(...)` paths of the C code are modelled by
  `StepResult.fatal e s` where `s` is the contents of the machine state at
  the moment the process exits.
* The C `for` loops inside `processor_cycle` (sprite draw, register
  store/load, key scan) are modelled by structurally recursive functions
  with an explicit iteration budget (`fuel`); the budget is chosen equal
  to the maximal number of iterations of the corresponding C loop, and the
  C loop condition is still tested on every iteration.
-/

/-- One CHIP-8 machine state, mirroring `chip8_state` in `src/chip8.c`.
Arrays are total functions; the `mem` and `stack` arrays are indexed by
`Nat` and the in-bounds discipline of the C program is captured by the
guarded accessors below. -/
structure Chip8State where
  mem : Nat → Fin 256
  display : Nat → Nat → Bool
  program_counter : Fin 65536
  index_register : Fin 65536
  stack_ptr : Fin 256
  stack : Nat → Fin 65536
  delay_timer : Fin 256
  sound_timer : Fin 256
  V : Nat → Fin 256
  keys_pressed : Nat → Bool

/-- The fatal conditions of `processor_cycle`: each carries the instruction
word and the program counter value that the C code prints before calling
`exit`. -/
inductive Chip8Error where
  | unknownInstruction (word pc : Nat)
  | stackOverflow (word pc : Nat)
  | stackUnderflow (word pc : Nat)
deriving DecidableEq

/-- Result of one `processor_cycle`: either a normal new state, or a fatal
condition together with the machine state at the moment of `exit`. -/
inductive StepResult where
  | ok (s : Chip8State)
  | fatal (e : Chip8Error) (s : Chip8State)

/-- Conversion of a C `int` arithmetic result into a `uint8_t` lvalue. -/
def toU8 (v : Nat) : Fin 256 := ⟨v % 256, Nat.mod_lt v (by decide)⟩

/-- Conversion of a C `int` arithmetic result into a `uint16_t` lvalue. -/
def toU16 (v : Nat) : Fin 65536 := ⟨v % 65536, Nat.mod_lt v (by decide)⟩

/-- Guarded read of `state->mem[i]`: `none` models an out-of-bounds access
(the C code performs no bounds check). -/
def readMem (s : Chip8State) (i : Nat) : Option (Fin 256) :=
  if i < 4096 then some (s.mem i) else none

/-- Guarded write of `state->mem[i] = v`. -/
def writeMem (s : Chip8State) (i : Nat) (v : Fin 256) : Option Chip8State :=
  if i < 4096 then some { s with mem := Function.update s.mem i v } else none

/-- Pointwise update of the 64×32 display array. -/
def setPixel (d : Nat → Nat → Bool) (a b : Nat) (v : Bool) : Nat → Nat → Bool :=
  fun a' b' => if a' = a ∧ b' = b then v else d a' b'

/-- Bit `(sprite_row >> (7 - i)) & 1` of a sprite row, as in the DXYN loop. -/
def spriteBit (row i : Nat) : Nat := (row >>> (7 - i)) &&& 1

/-- Inner column loop of DXYN:
`for (i = 0; i < 8 && dx + i < 64; i++) { ... }`, drawing row bits into
display row `b` and updating the collision flag.  `fuel` is the iteration
budget (8 from the initial call). -/
def drawRowGo (dx b row : Nat) (disp : Nat → Nat → Bool) (vf : Fin 256)
    (i fuel : Nat) : (Nat → Nat → Bool) × Fin 256 :=
  match fuel with
  | 0 => (disp, vf)
  | fuel + 1 =>
    if i < 8 ∧ dx + i < 64 then
      let bit := spriteBit row i
      let vf' := if disp (dx + i) b = true ∧ bit = 1 then (1 : Fin 256) else vf
      let disp' := setPixel disp (dx + i) b (xor (disp (dx + i) b) (bit == 1))
      drawRowGo dx b row disp' vf' (i + 1) fuel
    else (disp, vf)

/-- Outer row loop of DXYN:
`for (j = 0; j < n && dy + j < 32; j++) { sprite_row = mem[I + j]; ... }`.
Returns the final display and collision flag, or `none` on an
out-of-bounds sprite-row read. -/
def drawRowsGo (s : Chip8State) (ir dx dy n : Nat) (disp : Nat → Nat → Bool)
    (vf : Fin 256) (j fuel : Nat) : Option ((Nat → Nat → Bool) × Fin 256) :=
  match fuel with
  | 0 => some (disp, vf)
  | fuel + 1 =>
    if j < n ∧ dy + j < 32 then
      (readMem s (ir + j)).bind fun row =>
        let r := drawRowGo dx (dy + j) row.val disp vf 0 8
        drawRowsGo s ir dx dy n r.1 r.2 (j + 1) fuel
    else some (disp, vf)

/-- FX55 loop: `for (i = 0; i <= x; i++) mem[I + i] = V[i];`. -/
def storeRegsGo (s : Chip8State) (ir x i fuel : Nat) : Option Chip8State :=
  match fuel with
  | 0 => some s
  | fuel + 1 =>
    if i ≤ x then
      (writeMem s (ir + i) (s.V i)).bind fun s' => storeRegsGo s' ir x (i + 1) fuel
    else some s

/-- FX65 loop: `for (i = 0; i <= x; i++) V[i] = mem[I + i];`. -/
def loadRegsGo (s : Chip8State) (ir x i fuel : Nat) : Option Chip8State :=
  match fuel with
  | 0 => some s
  | fuel + 1 =>
    if i ≤ x then
      (readMem s (ir + i)).bind fun v =>
        loadRegsGo { s with V := Function.update s.V i v } ir x (i + 1) fuel
    else some s

/-- FX0A scan: `for (i = 0; i <= 0xF; i++) if (keys_pressed[i] == 1) ...`,
returning the first pressed key index, if any. -/
def scanKeysGo (keys : Nat → Bool) (i fuel : Nat) : Option Nat :=
  match fuel with
  | 0 => none
  | fuel + 1 =>
    if i ≤ 0xF then
      if keys i = true then some i else scanKeysGo keys (i + 1) fuel
    else none

/-- One call of `processor_cycle` in `src/chip8.c`.  `rnd` is the value
returned by `rand()` (used only by CXNN). -/
def step (rnd : Nat) (s0 : Chip8State) : Option StepResult :=
  (readMem s0 s0.program_counter.val).bind fun hiByte =>
  (readMem s0 (s0.program_counter.val + 1)).bind fun loByte =>
  -- instruction = mem[pc] << 8 | mem[pc + 1]
  let instruction : Nat := hiByte.val <<< 8 ||| loByte.val
  -- program_counter += 2
  let s := { s0 with program_counter := toU16 (s0.program_counter.val + 2) }
  let op := instruction >>> 12
  let x := (instruction &&& 0x0F00) >>> 8
  let y := (instruction &&& 0x00F0) >>> 4
  let nnn := instruction &&& 0x0FFF
  let nn := instruction &&& 0x00FF
  let n := instruction &&& 0x000F
  match op with
  | 0x0 =>
    match nnn with
    | 0x0E0 =>
      -- clear screen: display[i][j] = 0 for i < 64, j < 32
      some (.ok { s with display := fun i j => if i < 64 ∧ j < 32 then false else s.display i j })
    | 0x0EE =>
      if s.stack_ptr.val = 0 then
        some (.fatal (.stackUnderflow instruction s.program_counter.val) s)
      else
        some (.ok { s with
          program_counter := s.stack (s.stack_ptr.val - 1),
          stack_ptr := toU8 (s.stack_ptr.val - 1) })
    | _ => some (.fatal (.unknownInstruction instruction s.program_counter.val) s)
  | 0x1 => some (.ok { s with program_counter := toU16 nnn })
  | 0x2 =>
    if s.stack_ptr.val = 100 then
      some (.fatal (.stackOverflow instruction s.program_counter.val) s)
    else
      some (.ok { s with
        stack := Function.update s.stack s.stack_ptr.val s.program_counter,
        stack_ptr := toU8 (s.stack_ptr.val + 1),
        program_counter := toU16 nnn })
  | 0x3 =>
    if (s.V x).val = nn then
      some (.ok { s with program_counter := toU16 (s.program_counter.val + 2) })
    else some (.ok s)
  | 0x4 =>
    if (s.V x).val ≠ nn then
      some (.ok { s with program_counter := toU16 (s.program_counter.val + 2) })
    else some (.ok s)
  | 0x5 =>
    if s.V x = s.V y then
      some (.ok { s with program_counter := toU16 (s.program_counter.val + 2) })
    else some (.ok s)
  | 0x9 =>
    if s.V x ≠ s.V y then
      some (.ok { s with program_counter := toU16 (s.program_counter.val + 2) })
    else some (.ok s)
  | 0x6 => some (.ok { s with V := Function.update s.V x (toU8 nn) })
  | 0x7 => some (.ok { s with V := Function.update s.V x (toU8 ((s.V x).val + nn)) })
  | 0x8 =>
    match n with
    | 0x0 => some (.ok { s with V := Function.update s.V x (s.V y) })
    | 0x1 => some (.ok { s with V := Function.update s.V x (toU8 ((s.V x).val ||| (s.V y).val)) })
    | 0x2 => some (.ok { s with V := Function.update s.V x (toU8 ((s.V x).val &&& (s.V y).val)) })
    | 0x3 => some (.ok { s with V := Function.update s.V x (toU8 ((s.V x).val ^^^ (s.V y).val)) })
    | 0x4 =>
      -- V[0xF] = (V[x] + V[y]) < V[x]  (int arithmetic: the sum does not wrap),
      -- then V[x] += V[y]  (reading V after the flag write)
      let V1 := Function.update s.V 0xF
        (if (s.V x).val + (s.V y).val < (s.V x).val then (1 : Fin 256) else 0)
      some (.ok { s with V := Function.update V1 x (toU8 ((V1 x).val + (V1 y).val)) })
    | 0x5 =>
      let V1 := Function.update s.V 0xF
        (if (s.V x).val > (s.V y).val then (1 : Fin 256) else 0)
      some (.ok { s with V := Function.update V1 x (toU8 ((V1 x).val + 256 - (V1 y).val)) })
    | 0x6 =>
      let V1 := Function.update s.V 0xF (toU8 ((s.V x).val &&& 0x1))
      some (.ok { s with V := Function.update V1 x (toU8 ((V1 x).val >>> 1)) })
    | 0x7 =>
      let V1 := Function.update s.V 0xF
        (if (s.V y).val > (s.V x).val then (1 : Fin 256) else 0)
      some (.ok { s with V := Function.update V1 x (toU8 ((V1 y).val + 256 - (V1 x).val)) })
    | 0xE =>
      let V1 := Function.update s.V 0xF (toU8 (((s.V x).val >>> 7) &&& 0x1))
      some (.ok { s with V := Function.update V1 x (toU8 ((V1 x).val <<< 1)) })
    | _ => some (.fatal (.unknownInstruction instruction s.program_counter.val) s)
  | 0xA => some (.ok { s with index_register := toU16 nnn })
  | 0xB => some (.ok { s with program_counter := toU16 ((s.V x).val + nnn) })
  | 0xC => some (.ok { s with V := Function.update s.V x (toU8 (rnd &&& nn)) })
  | 0xD =>
    let dx := (s.V x).val % 64
    let dy := (s.V y).val % 32
    -- V[0xF] = 0 before the loop
    let V1 := Function.update s.V 0xF 0
    (drawRowsGo s s.index_register.val dx dy n s.display 0 0 n).bind fun r =>
      some (.ok { s with display := r.1, V := Function.update V1 0xF r.2 })
  | 0xE =>
    match nn with
    | 0x9E =>
      if s.keys_pressed (s.V x).val = true then
        some (.ok { s with program_counter := toU16 (s.program_counter.val + 2) })
      else some (.ok s)
    | 0xA1 =>
      if s.keys_pressed (s.V x).val = false then
        some (.ok { s with program_counter := toU16 (s.program_counter.val + 2) })
      else some (.ok s)
    | _ => some (.fatal (.unknownInstruction instruction s.program_counter.val) s)
  | 0xF =>
    match nn with
    | 0x07 => some (.ok { s with V := Function.update s.V x s.delay_timer })
    | 0x15 => some (.ok { s with delay_timer := s.V x })
    | 0x18 => some (.ok { s with sound_timer := s.V x })
    | 0x1E =>
      -- V[0xF] = (V[x] + index_register) < V[x]  (int arithmetic, no wrap),
      -- then index_register += V[x]  (reading V after the flag write)
      let V1 := Function.update s.V 0xF
        (if (s.V x).val + s.index_register.val < (s.V x).val then (1 : Fin 256) else 0)
      some (.ok { s with
        V := V1,
        index_register := toU16 (s.index_register.val + (V1 x).val) })
    | 0x0A =>
      -- program_counter -= 2, then scan for a pressed key
      let s2 := { s with program_counter := toU16 (s.program_counter.val + 65536 - 2) }
      match scanKeysGo s2.keys_pressed 0 16 with
      | none => some (.ok s2)
      | some i =>
        some (.ok { s2 with
          V := Function.update s2.V x (toU8 i),
          program_counter := toU16 (s2.program_counter.val + 2) })
    | 0x29 => some (.ok { s with index_register := toU16 (0x050 + (s.V x).val * 5) })
    | 0x33 =>
      (writeMem s s.index_register.val (toU8 ((s.V x).val % 1000 / 100))).bind fun sA =>
      (writeMem sA (s.index_register.val + 1) (toU8 ((sA.V x).val % 100 / 10))).bind fun sB =>
      (writeMem sB (s.index_register.val + 2) (toU8 ((sB.V x).val % 10))).bind fun sC =>
      some (.ok sC)
    | 0x55 =>
      (storeRegsGo s s.index_register.val x 0 (x + 1)).bind fun s' => some (.ok s')
    | 0x65 =>
      (loadRegsGo s s.index_register.val x 0 (x + 1)).bind fun s' => some (.ok s')
    | _ => some (.fatal (.unknownInstruction instruction s.program_counter.val) s)
  | _ => some (.fatal (.unknownInstruction instruction s.program_counter.val) s)

/-- The machine state carried by a step result (the state after a normal
step, or the state at the moment of `exit` for a fatal one). -/
def StepResult.state : StepResult → Chip8State
  | .ok s => s
  | .fatal _ s => s

/-- The fatal condition carried by a step result, if any. -/
def StepResult.err : StepResult → Option Chip8Error
  | .ok _ => none
  | .fatal e _ => some e

/-- A convenient all-zero machine state used to build concrete test states. -/
def baseState : Chip8State where
  mem := fun _ => 0
  display := fun _ _ => false
  program_counter := 0x200
  index_register := 0
  stack_ptr := 0
  stack := fun _ => 0
  delay_timer := 0
  sound_timer := 0
  V := fun _ => 0
  keys_pressed := fun _ => false

/-- The 16-bit instruction word fetched at the current program counter:
`mem[pc] << 8 | mem[pc + 1]`. -/
def fetchWord (s : Chip8State) : Nat :=
  (s.mem s.program_counter.val).val <<< 8 ||| (s.mem (s.program_counter.val + 1)).val

/-- Modelled from the spec: the timer-tick operation (`tick_timers`).  The C
sources contain no timer decrement at all — `delay_timer` and `sound_timer`
are declared with the comment `Timers decremented at 60 Hz` but only opcodes
FX07/FX15/FX18 ever touch them, and the `main` loop never decrements them;
the Rust implementation the README refers to is not among these sources.
Per the spec, a host-invoked 60 Hz cadence call, distinct from `step`,
decrements each timer toward 0, never below 0. -/
def tick_timers (s : Chip8State) : Chip8State :=
  { s with
    delay_timer := ⟨s.delay_timer.val - 1,
      Nat.lt_of_le_of_lt (Nat.sub_le _ 1) s.delay_timer.isLt⟩,
    sound_timer := ⟨s.sound_timer.val - 1,
      Nat.lt_of_le_of_lt (Nat.sub_le _ 1) s.sound_timer.isLt⟩ }

/-- State for claim C1: `V0 = 0xFF`, `V1 = 0x01`, instruction `8014`
(ALU add-with-carry of `V1` into `V0`) at `pc = 0x200`. -/
def c1State : Chip8State :=
  { baseState with
    mem := fun i => if i = 0x200 then 0x80 else if i = 0x201 then 0x14 else 0,
    V := fun i => if i = 0 then 0xFF else if i = 1 then 0x01 else 0 }

/-- State for claim C2's counterexample: `VF = 5`, `index_register = 100`,
instruction `FF1E` (add `VF` to `I`) at `pc = 0x200`. -/
def c2State : Chip8State :=
  { baseState with
    mem := fun i => if i = 0x200 then 0xFF else if i = 0x201 then 0x1E else 0,
    index_register := 100,
    V := fun i => if i = 15 then 5 else 0 }

/-- State for claim C2's witness: `V0 = 7`, `index_register = 100`,
instruction `F01E` at `pc = 0x200`. -/
def c2wState : Chip8State :=
  { baseState with
    mem := fun i => if i = 0x200 then 0xF0 else if i = 0x201 then 0x1E else 0,
    index_register := 100,
    V := fun i => if i = 0 then 7 else 0 }

/-- State for claim C3: empty call stack, instruction `00EE` (RETURN) at
`pc = 0x200`. -/
def c3State : Chip8State :=
  { baseState with
    mem := fun i => if i = 0x200 then 0x00 else if i = 0x201 then 0xEE else 0 }

/-- State for claim C4's witness: both timers nonzero. -/
def c4State : Chip8State :=
  { baseState with delay_timer := 5, sound_timer := 1 }

/-- State for claim C7's counterexample: `V0 = 5`, `VF = 3`, instruction
`80F5` (`V0 = V0 - VF`) at `pc = 0x200`: the borrow-flag write to `VF`
precedes the subtraction and aliases the subtrahend. -/
def c7State : Chip8State :=
  { baseState with
    mem := fun i => if i = 0x200 then 0x80 else if i = 0x201 then 0xF5 else 0,
    V := fun i => if i = 0 then 5 else if i = 15 then 3 else 0 }

/-- State for claim C7's witness: `V0 = 5`, `V1 = 3`, instruction `8015`. -/
def c7wState : Chip8State :=
  { baseState with
    mem := fun i => if i = 0x200 then 0x80 else if i = 0x201 then 0x15 else 0,
    V := fun i => if i = 0 then 5 else if i = 1 then 3 else 0 }

/-- State for claim C8's witness: empty stack, `CALL 0x20A` (`220A`) at
`pc = 0x200` and `RETURN` (`00EE`) at `0x20A`. -/
def c8CallState : Chip8State :=
  { baseState with
    mem := fun i =>
      if i = 0x200 then 0x22 else if i = 0x201 then 0x0A else
      if i = 0x20A then 0x00 else if i = 0x20B then 0xEE else 0 }

/-- The machine state after executing the CALL of `c8CallState`. -/
def c8AfterCallState : Chip8State :=
  { c8CallState with
    stack := Function.update c8CallState.stack 0 (toU16 0x202),
    stack_ptr := toU8 1,
    program_counter := toU16 0x20A }

/-- State for claim C9's witness: instruction `F30A` (wait for key, store
in `V3`) at `pc = 0x200`, with keys 7 and 12 pressed. -/
def c9State : Chip8State :=
  { baseState with
    mem := fun i => if i = 0x200 then 0xF3 else if i = 0x201 then 0x0A else 0,
    keys_pressed := fun i => i == 7 || i == 12 }

/-- State for claim C5's witness: instruction `D125` (draw 5 rows at
`(V1, V2)`) at `pc = 0x200`, `V1 = 10`, `V2 = 3`, `index_register = 0x50`,
and the font glyph `0` (`F0 90 90 90 F0`) at `0x50..0x54`. -/
def c5State : Chip8State :=
  { baseState with
    mem := fun i =>
      if i = 0x200 then 0xD1 else if i = 0x201 then 0x25 else
      if i = 0x50 then 0xF0 else if i = 0x51 then 0x90 else
      if i = 0x52 then 0x90 else if i = 0x53 then 0x90 else
      if i = 0x54 then 0xF0 else 0,
    index_register := 0x50,
    V := fun i => if i = 1 then 10 else if i = 2 then 3 else 0 }

/-- State for claim C6's counterexample: instruction `1201` (jump to the
odd address `0x201`) at `pc = 0x200`. -/
def c6State : Chip8State :=
  { baseState with
    mem := fun i => if i = 0x200 then 0x12 else if i = 0x201 then 0x01 else 0 }

/-- The number of `mem` cells at and above `index_register` that the
instruction decoded at the current program counter accesses during one
step: the sprite rows actually read by `DXYN` (rows are clipped at the
bottom display edge), the three digit cells of `FX33`, and the `x + 1`
register cells of `FX55`/`FX65`; every other instruction accesses no
memory beyond the two-byte fetch. -/
def accessSpan (s : Chip8State) : Nat :=
  let instruction : Nat :=
    (s.mem s.program_counter.val).val <<< 8 ||| (s.mem (s.program_counter.val + 1)).val
  let x := (instruction &&& 0x0F00) >>> 8
  let y := (instruction &&& 0x00F0) >>> 4
  let nn := instruction &&& 0x00FF
  let n := instruction &&& 0x000F
  if instruction >>> 12 = 0xD then min n (32 - (s.V y).val % 32)
  else if instruction >>> 12 = 0xF then
    if nn = 0x33 then 3
    else if nn = 0x55 ∨ nn = 0x65 then x + 1
    else 0
  else 0

/-- State for claim C10: `FX33` at `pc = 0x200` with
`index_register = 4094`, so the third digit write lands at index 4096,
outside the memory array. -/
def c10BadState : Chip8State :=
  { baseState with
    mem := fun i => if i = 0x200 then 0xF0 else if i = 0x201 then 0x33 else 0,
    index_register := 4094 }

/-! ## Helper lemmas -/

theorem toU8_val (v : Nat) : (toU8 v).val = v % 256 := rfl

theorem toU16_val (v : Nat) : (toU16 v).val = v % 65536 := rfl

theorem readMem_of_lt (s : Chip8State) (i : Nat) (h : i < 4096) :
    readMem s i = some (s.mem i) := by
  simp [readMem, h]

/-! ## Claims -/

/-- C1: the spec says ALU op 4 (`8XY4`) sets `VF = 1` iff the true 9-bit sum
`Vx + Vy` is at least 256, carry being detected by comparing the wrapped
8-bit sum against `Vx`.  The code compares the *unwrapped* sum — C integer
promotion makes `(V[x] + V[y]) < V[x]` a comparison of mathematical
integers, which is never true — so `VF` is set to 0 even when the true sum
reaches 256, contradicting the code's own comment (`... then we saw
overflow`).  At `V0 = 0xFF`, `V1 = 0x01`, instruction `8014`: the true sum
is 256, the wrapped sum 0 is stored in `V0`, yet `VF` ends up 0 where the
claim requires 1. -/
theorem c1_add_carry_flag_never_set :
    (step 0 c1State).map (fun r => ((r.state.V 0).val, (r.state.V 15).val)) = some (0, 0) ∧
    (c1State.V 0).val + (c1State.V 1).val = 256 := by
  decide

/-- C2 counterexample: for `X = 0xF` the claim "FX1E adds Vx to
index_register" fails: with `VF = 5` and `I = 100`, instruction `FF1E`
leaves `I = 100` instead of 105, because the flag write zeroes `VF` before
the addition `index_register += V[x]` reads it. -/
theorem c2_fx1e_alias_counterexample :
    (step 0 c2State).map (fun r => r.state.index_register.val) = some 100 ∧
    (c2State.V 15).val = 5 ∧ c2State.index_register.val = 100 := by
  decide

/-- C2 (amended): for `X ≠ 0xF`, executing `FX1E` adds `Vx` to
`index_register` (mod 2^16) and sets `VF` to 1 exactly when the comparison
of the sum against `Vx` indicates overflow — the comparison the code
performs is on the unwrapped (integer-promoted) sum, so it never indicates
overflow and `VF` is always set to 0.  When `X = 0xF` the flag write
precedes and aliases the addend, so `index_register` is unchanged. -/
theorem c2_fx1e_amended (rnd : Nat) (s : Chip8State) (w x : Nat)
    (hw : fetchWord s = w)
    (hpc : s.program_counter.val ≤ 4094)
    (hop : w >>> 12 = 0xF)
    (hnn : w &&& 0x00FF = 0x1E)
    (hx : (w &&& 0x0F00) >>> 8 = x)
    (hxF : x ≠ 15) :
    ∃ s', step rnd s = some (.ok s') ∧
      s'.index_register.val = (s.index_register.val + (s.V x).val) % 65536 ∧
      s'.V 15 = (if (s.V x).val + s.index_register.val < (s.V x).val then (1 : Fin 256) else 0) ∧
      s'.V 15 = 0 := by
  unfold fetchWord at hw
  unfold step readMem
  rw [if_pos (by omega), if_pos (by omega)]
  simp only [Option.some_bind]
  rw [hw, hop, hnn, hx]
  refine ⟨_, rfl, ?_, ?_, ?_⟩
  · simp only [toU16_val]
    rw [Function.update_noteq hxF]
  · simp [Function.update_same]
  · simp only [Function.update_same]
    rw [if_neg (by omega)]

/-- C2 witness: instruction `F01E` with `V0 = 7`, `I = 100` yields
`I = 107` and `VF = 0`. -/
theorem c2_fx1e_witness :
    ∃ s', step 0 c2wState = some (.ok s') ∧
      s'.index_register.val = 107 ∧ s'.V 15 = 0 := by
  obtain ⟨s', h1, h2, _, h4⟩ :=
    c2_fx1e_amended 0 c2wState 0xF01E 0 (by decide) (by decide) (by decide)
      (by decide) (by decide) (by decide)
  exact ⟨s', h1, by simpa using h2, h4⟩

/-- C3 counterexample: RETURN (`00EE`) on an empty stack signals
StackUnderflow, but the program counter at that moment is the pre-call
value *plus 2*: the fetch advance `program_counter += 2` happened before
the underflow was detected, so the state is not "unchanged from its value
before the step() call". -/
theorem c3_underflow_pc_counterexample :
    (step 0 c3State).map (fun r => (r.err, r.state.program_counter.val)) =
      some (some (.stackUnderflow 0x00EE 0x202), 0x202) ∧
    c3State.program_counter.val = 0x200 := by
  decide

/-- C3 (amended): RETURN (`00EE`) with an empty stack signals
StackUnderflow carrying the instruction word and the advanced program
counter; at that moment the machine state equals the pre-call state in
every component except `program_counter`, which holds the pre-call value
plus 2 (mod 2^16) from the unconditional fetch advance — no mutation
beyond that fetch advance occurs once the fatal condition is detected. -/
theorem c3_underflow_amended (rnd : Nat) (s : Chip8State) (w : Nat)
    (hw : fetchWord s = w)
    (hpc : s.program_counter.val ≤ 4094)
    (hop : w >>> 12 = 0x0)
    (hnnn : w &&& 0x0FFF = 0x0EE)
    (hsp : s.stack_ptr.val = 0) :
    step rnd s = some (.fatal (.stackUnderflow w ((s.program_counter.val + 2) % 65536))
      { s with program_counter := toU16 (s.program_counter.val + 2) }) := by
  unfold fetchWord at hw
  unfold step readMem
  rw [if_pos (by omega), if_pos (by omega)]
  simp only [Option.some_bind]
  rw [hw, hop, hnnn]
  simp [hsp, toU16_val]

/-- C3 witness: at `pc = 0x200` with an empty stack, `00EE` yields the
StackUnderflow result with `pc = 0x202` and no other mutation. -/
theorem c3_underflow_witness :
    step 0 c3State = some (.fatal (.stackUnderflow 0x00EE 0x202)
      { c3State with program_counter := toU16 0x202 }) := by
  exact c3_underflow_amended 0 c3State 0x00EE (by decide) (by decide) (by decide)
    (by decide) (by decide)

/-- C4: the timer-tick operation (modelled from the spec, since no C
source decrements the timers) is distinct from `step`; each invocation
decrements `delay_timer` and `sound_timer` toward 0, and a timer already
at 0 stays at 0 — neither ever goes below 0. -/
theorem c4_tick_timers_decrement (s : Chip8State) :
    (tick_timers s).delay_timer.val = s.delay_timer.val - 1 ∧
    (tick_timers s).sound_timer.val = s.sound_timer.val - 1 ∧
    (s.delay_timer.val = 0 → (tick_timers s).delay_timer.val = 0) ∧
    (s.sound_timer.val = 0 → (tick_timers s).sound_timer.val = 0) ∧
    (0 < s.delay_timer.val → (tick_timers s).delay_timer.val < s.delay_timer.val) ∧
    (0 < s.sound_timer.val → (tick_timers s).sound_timer.val < s.sound_timer.val) := by
  refine ⟨rfl, rfl, ?_, ?_, ?_, ?_⟩ <;> (intro h; simp [tick_timers]; omega)

/-- C4 witness: ticking a state with `delay_timer = 5`, `sound_timer = 1`
gives 4 and 0. -/
theorem c4_tick_timers_witness :
    (tick_timers c4State).delay_timer.val = 4 ∧
    (tick_timers c4State).sound_timer.val = 0 := by
  have h := c4_tick_timers_decrement c4State
  exact ⟨by rw [h.1]; decide, by rw [h.2.1]; decide⟩

/-- C7 counterexample: for `Y = 0xF` the claim fails: with `V0 = 5`,
`VF = 3`, instruction `80F5` gives `V0 = 4`, not `(V0 - VF) mod 256 = 2`,
because the borrow-flag write `V[0xF] = (V[x] > V[y])` precedes the
subtraction and aliases the subtrahend. -/
theorem c7_sub_alias_counterexample :
    (step 0 c7State).map (fun r => (r.state.V 0).val) = some 4 ∧
    ((c7State.V 0).val + 256 - (c7State.V 15).val) % 256 = 2 := by
  decide

/-- C7 (amended): for `X ≠ 0xF` and `Y ≠ 0xF`, executing ALU op 5
(`8XY5`) sets `VF` to 1 iff `Vx > Vy` (pre-op values) and afterwards `Vx`
equals `(Vx - Vy) mod 256`; when `X` or `Y` is `0xF` the flag write
precedes the subtraction and aliases an operand, breaking the claim. -/
theorem c7_sub_borrow_amended (rnd : Nat) (s : Chip8State) (w x y : Nat)
    (hw : fetchWord s = w)
    (hpc : s.program_counter.val ≤ 4094)
    (hop : w >>> 12 = 0x8)
    (hn : w &&& 0x000F = 0x5)
    (hx : (w &&& 0x0F00) >>> 8 = x)
    (hy : (w &&& 0x00F0) >>> 4 = y)
    (hxF : x ≠ 15) (hyF : y ≠ 15) :
    ∃ s', step rnd s = some (.ok s') ∧
      (s'.V 15 = (if (s.V x).val > (s.V y).val then (1 : Fin 256) else 0)) ∧
      ((s'.V x).val : Int) = (((s.V x).val : Int) - ((s.V y).val : Int)) % 256 := by
  unfold fetchWord at hw
  unfold step readMem
  rw [if_pos (by omega), if_pos (by omega)]
  simp only [Option.some_bind]
  rw [hw, hop, hn, hx, hy]
  refine ⟨_, rfl, ?_, ?_⟩
  · dsimp only
    rw [Function.update_noteq (Ne.symm hxF), Function.update_same]
  · dsimp only
    rw [Function.update_same, Function.update_noteq hxF, Function.update_noteq hyF,
      toU8_val]
    have hx' := (s.V x).isLt
    have hy' := (s.V y).isLt
    omega

/-- C7 witness: `V0 = 5`, `V1 = 3`, instruction `8015` yields `VF = 1`
and `V0 = 2`. -/
theorem c7_sub_borrow_witness :
    ∃ s', step 0 c7wState = some (.ok s') ∧
      s'.V 15 = 1 ∧ ((s'.V 0).val : Int) = 2 := by
  obtain ⟨s', h1, h2, h3⟩ :=
    c7_sub_borrow_amended 0 c7wState 0x8015 0 1 (by decide) (by decide) (by decide)
      (by decide) (by decide) (by decide) (by decide) (by decide)
  refine ⟨s', h1, by simpa using h2, by simpa using h3⟩

theorem scanKeysGo_eq_none (keys : Nat → Bool) :
    ∀ fuel i, (∀ t, i ≤ t → t ≤ 15 → keys t = false) →
    scanKeysGo keys i fuel = none := by
  intro fuel
  induction fuel with
  | zero => intro i _; rfl
  | succ f ih =>
    intro i h
    unfold scanKeysGo
    by_cases hi : i ≤ 15
    · rw [if_pos hi, h i le_rfl hi]
      simp only [Bool.false_eq_true, if_false]
      exact ih (i + 1) fun t ht1 ht2 => h t (by omega) ht2
    · rw [if_neg hi]

theorem scanKeysGo_eq_some (keys : Nat → Bool) :
    ∀ fuel i k, i ≤ k → k ≤ 15 → k < i + fuel → keys k = true →
    (∀ t, i ≤ t → t < k → keys t = false) →
    scanKeysGo keys i fuel = some k := by
  intro fuel
  induction fuel with
  | zero => intro i k h1 _ h3 _ _; omega
  | succ f ih =>
    intro i k h1 h2 h3 hk hlow
    unfold scanKeysGo
    rw [if_pos (by omega)]
    rcases Nat.eq_or_lt_of_le h1 with h | h
    · rw [← h] at hk
      rw [hk, if_pos rfl, h]
    · rw [hlow i le_rfl h]
      simp only [Bool.false_eq_true, if_false]
      exact ih (i + 1) k (by omega) h2 (by omega) hk fun t ht1 ht2 => hlow t (by omega) ht2

/-- C9: executing `FX0A` when no key is pressed leaves the machine state —
in particular `program_counter` — unchanged across the step (the fetch
advance of 2 is undone by `program_counter -= 2`, so the same instruction
re-decodes on every subsequent step); when at least one key is pressed,
the lowest pressed key index (scanning 0..15 ascending) is stored in `Vx`
and `program_counter` advances past the instruction by 2 exactly once. -/
theorem c9_fx0a_wait_key (rnd : Nat) (s : Chip8State) (w x : Nat)
    (hw : fetchWord s = w)
    (hpc : s.program_counter.val ≤ 4094)
    (hop : w >>> 12 = 0xF)
    (hnn : w &&& 0x00FF = 0x0A)
    (hx : (w &&& 0x0F00) >>> 8 = x) :
    ((∀ t, t ≤ 15 → s.keys_pressed t = false) → step rnd s = some (.ok s)) ∧
    (∀ k, k ≤ 15 → s.keys_pressed k = true →
      (∀ t, t < k → s.keys_pressed t = false) →
      step rnd s = some (.ok { s with
        V := Function.update s.V x (toU8 k),
        program_counter := toU16 (s.program_counter.val + 2) })) := by
  have hlt := s.program_counter.isLt
  constructor
  · intro hnone
    unfold fetchWord at hw
    unfold step readMem
    rw [if_pos (by omega), if_pos (by omega)]
    simp only [Option.some_bind]
    rw [hw, hop, hnn, hx]
    dsimp only
    rw [scanKeysGo_eq_none _ 16 0 (fun t _ ht2 => hnone t ht2)]
    have heq : toU16 ((toU16 (s.program_counter.val + 2)).val + 65536 - 2) =
        s.program_counter := by
      apply Fin.ext
      simp only [toU16_val]
      omega
    rw [heq]
  · intro k hk hkp hlow
    unfold fetchWord at hw
    unfold step readMem
    rw [if_pos (by omega), if_pos (by omega)]
    simp only [Option.some_bind]
    rw [hw, hop, hnn, hx]
    dsimp only
    rw [scanKeysGo_eq_some _ 16 0 k (Nat.zero_le k) hk (by omega) hkp
      (fun t _ ht2 => hlow t ht2)]
    have heq : toU16 ((toU16 ((toU16 (s.program_counter.val + 2)).val + 65536 - 2)).val + 2) =
        toU16 (s.program_counter.val + 2) := by
      apply Fin.ext
      simp only [toU16_val]
      omega
    rw [heq]

/-- C9 witness: `F30A` at `pc = 0x200` with keys 7 and 12 pressed stores 7
in `V3` and advances `pc` to `0x202`; the same instruction with no key
pressed leaves the state unchanged. -/
theorem c9_fx0a_wait_key_witness :
    step 0 c9State = some (.ok { c9State with
      V := Function.update c9State.V 3 (toU8 7),
      program_counter := toU16 0x202 }) ∧
    step 0 { c9State with keys_pressed := fun _ => false } =
      some (.ok { c9State with keys_pressed := fun _ => false }) := by
  constructor
  · exact (c9_fx0a_wait_key 0 c9State 0xF30A 3 (by decide) (by decide) (by decide)
      (by decide) (by decide)).2 7 (by decide) (by decide) (by decide)
  · exact (c9_fx0a_wait_key 0 { c9State with keys_pressed := fun _ => false } 0xF30A 3
      (by decide) (by decide) (by decide) (by decide) (by decide)).1 (by decide)

/-- C8: for every nesting depth at most 100 (call stack holding at most 99
return addresses before the CALL), executing CALL (`2NNN`) pushes the
address of the instruction following the CALL and jumps to `NNN`; any
later RETURN (`00EE`) executed with that stack top still in place restores
`program_counter` to the address immediately following the CALL.  The
101st nested CALL (stack at capacity 100) signals StackOverflow without
mutating the state beyond the unconditional fetch advance already
performed. -/
theorem c8_call_return_roundtrip (rnd : Nat) (s : Chip8State) (w : Nat)
    (hw : fetchWord s = w)
    (hpc : s.program_counter.val ≤ 4094)
    (hop : w >>> 12 = 0x2) :
    (s.stack_ptr.val ≤ 99 →
      step rnd s = some (.ok { s with
        stack := Function.update s.stack s.stack_ptr.val (toU16 (s.program_counter.val + 2)),
        stack_ptr := toU8 (s.stack_ptr.val + 1),
        program_counter := toU16 (w &&& 0x0FFF) }) ∧
      (∀ rnd2 s3 w2, fetchWord s3 = w2 → s3.program_counter.val ≤ 4094 →
        w2 >>> 12 = 0x0 → w2 &&& 0x0FFF = 0x0EE →
        s3.stack_ptr.val = s.stack_ptr.val + 1 →
        s3.stack = Function.update s.stack s.stack_ptr.val (toU16 (s.program_counter.val + 2)) →
        ∃ s4, step rnd2 s3 = some (.ok s4) ∧
          s4.program_counter.val = (s.program_counter.val + 2) % 65536)) ∧
    (s.stack_ptr.val = 100 →
      step rnd s = some (.fatal (.stackOverflow w ((s.program_counter.val + 2) % 65536))
        { s with program_counter := toU16 (s.program_counter.val + 2) })) := by
  unfold fetchWord at hw
  constructor
  · intro hsp
    constructor
    · unfold step readMem
      rw [if_pos (by omega), if_pos (by omega)]
      simp only [Option.some_bind]
      rw [hw, hop]
      dsimp only
      rw [if_neg (by omega)]
    · intro rnd2 s3 w2 hw3 hpc3 hop3 hnnn3 hsp3 hstk3
      unfold fetchWord at hw3
      unfold step readMem
      rw [if_pos (by omega), if_pos (by omega)]
      simp only [Option.some_bind]
      rw [hw3, hop3, hnnn3]
      dsimp only
      rw [if_neg (by omega)]
      refine ⟨_, rfl, ?_⟩
      dsimp only
      rw [hsp3, hstk3, Nat.add_sub_cancel, Function.update_same, toU16_val]
  · intro hsp
    unfold step readMem
    rw [if_pos (by omega), if_pos (by omega)]
    simp only [Option.some_bind]
    rw [hw, hop]
    dsimp only
    rw [if_pos hsp]
    rfl

/-- C8 witness: from `c8CallState` (empty stack, `CALL 0x20A` at `0x200`,
`00EE` at `0x20A`), the CALL yields `c8AfterCallState`, from which the
RETURN restores `pc = 0x202`, the address after the CALL. -/
theorem c8_call_return_roundtrip_witness :
    step 0 c8CallState = some (.ok c8AfterCallState) ∧
    ∃ s4, step 0 c8AfterCallState = some (.ok s4) ∧ s4.program_counter.val = 0x202 := by
  obtain ⟨h1, h2⟩ := (c8_call_return_roundtrip 0 c8CallState 0x220A (by decide)
    (by decide) (by decide)).1 (by decide)
  constructor
  · rw [h1]; rfl
  · obtain ⟨s4, hs4, hpc4⟩ := h2 0 c8AfterCallState 0x00EE (by decide) (by decide)
      (by decide) (by decide) (by decide) rfl
    exact ⟨s4, hs4, by rw [hpc4]; decide⟩

theorem drawRowGo_spec (dx b row : Nat) :
    ∀ fuel i disp vf,
    (∀ t, i ≤ t → t < i + fuel → t < 8 → dx + t < 64 →
      (drawRowGo dx b row disp vf i fuel).1 (dx + t) b =
        xor (disp (dx + t) b) (spriteBit row t == 1)) ∧
    (∀ a b', (b' = b → ∀ t, i ≤ t → t < i + fuel → t < 8 → dx + t < 64 → a ≠ dx + t) →
      (drawRowGo dx b row disp vf i fuel).1 a b' = disp a b') ∧
    ((∃ t, i ≤ t ∧ t < i + fuel ∧ t < 8 ∧ dx + t < 64 ∧
        disp (dx + t) b = true ∧ spriteBit row t = 1) →
      (drawRowGo dx b row disp vf i fuel).2 = 1) ∧
    ((¬ ∃ t, i ≤ t ∧ t < i + fuel ∧ t < 8 ∧ dx + t < 64 ∧
        disp (dx + t) b = true ∧ spriteBit row t = 1) →
      (drawRowGo dx b row disp vf i fuel).2 = vf) := by
  intro fuel
  induction fuel with
  | zero =>
    intro i disp vf
    refine ⟨fun t h1 h2 => absurd h2 (by omega), fun a b' _ => rfl, ?_, fun _ => rfl⟩
    rintro ⟨t, h1, h2, -⟩
    exact absurd h2 (by omega)
  | succ f ih =>
    intro i disp vf
    unfold drawRowGo
    by_cases hg : i < 8 ∧ dx + i < 64
    · rw [if_pos hg]
      dsimp only
      obtain ⟨ihA, ihB, ihC, ihD⟩ := ih (i + 1)
        (setPixel disp (dx + i) b (xor (disp (dx + i) b) (spriteBit row i == 1)))
        (if disp (dx + i) b = true ∧ spriteBit row i = 1 then (1 : Fin 256) else vf)
      have hmem : ∀ t, i + 1 ≤ t →
          setPixel disp (dx + i) b (xor (disp (dx + i) b) (spriteBit row i == 1))
            (dx + t) b = disp (dx + t) b := by
        intro t ht
        have hne : dx + t ≠ dx + i := by omega
        simp [setPixel, hne]
      refine ⟨?_, ?_, ?_, ?_⟩
      · intro t ht1 ht2 ht3 ht4
        rcases Nat.eq_or_lt_of_le ht1 with heq | hti
        · subst heq
          rw [ihB (dx + i) b (fun _ t' h1' _ _ _ => by omega)]
          simp [setPixel]
        · rw [ihA t (by omega) (by omega) ht3 ht4, hmem t (by omega)]
      · intro a b' h
        rw [ihB a b' (fun hb t' h1' h2' h3' h4' => h hb t' (by omega) (by omega) h3' h4')]
        rcases eq_or_ne b' b with rfl | hbb
        · have hne : a ≠ dx + i := h rfl i le_rfl (by omega) hg.1 hg.2
          simp [setPixel, hne]
        · simp [setPixel, hbb]
      · rintro ⟨t, ht1, ht2, ht3, ht4, ht5, ht6⟩
        by_cases hci : disp (dx + i) b = true ∧ spriteBit row i = 1
        · by_cases hlater : ∃ t', i + 1 ≤ t' ∧ t' < i + 1 + f ∧ t' < 8 ∧ dx + t' < 64 ∧
              setPixel disp (dx + i) b (xor (disp (dx + i) b) (spriteBit row i == 1))
                (dx + t') b = true ∧ spriteBit row t' = 1
          · exact ihC hlater
          · rw [ihD hlater, if_pos hci]
        · have hti : i + 1 ≤ t := by
            rcases Nat.eq_or_lt_of_le ht1 with heq | h
            · exact absurd ⟨heq ▸ ht5, heq ▸ ht6⟩ hci
            · omega
          refine ihC ⟨t, hti, by omega, ht3, ht4, ?_, ht6⟩
          rw [hmem t hti]
          exact ht5
      · intro hno
        have hci : ¬(disp (dx + i) b = true ∧ spriteBit row i = 1) := by
          intro hc
          exact hno ⟨i, le_rfl, by omega, hg.1, hg.2, hc.1, hc.2⟩
        have hlater : ¬ ∃ t', i + 1 ≤ t' ∧ t' < i + 1 + f ∧ t' < 8 ∧ dx + t' < 64 ∧
            setPixel disp (dx + i) b (xor (disp (dx + i) b) (spriteBit row i == 1))
              (dx + t') b = true ∧ spriteBit row t' = 1 := by
          rintro ⟨t', h1, h2, h3, h4, h5, h6⟩
          rw [hmem t' h1] at h5
          exact hno ⟨t', by omega, by omega, h3, h4, h5, h6⟩
        rw [ihD hlater, if_neg hci]
    · rw [if_neg hg]
      refine ⟨fun t h1 h2 h3 h4 => absurd (show i < 8 ∧ dx + i < 64 by omega) hg,
        fun a b' _ => rfl, ?_, fun _ => rfl⟩
      rintro ⟨t, h1, h2, h3, h4, -⟩
      exact absurd (show i < 8 ∧ dx + i < 64 by omega) hg

theorem drawRowsGo_spec (s : Chip8State) (ir dx dy n : Nat) :
    ∀ fuel j disp vf,
    (∀ t, j ≤ t → t < j + fuel → t < n → dy + t < 32 → ir + t < 4096) →
    ∃ dv : (Nat → Nat → Bool) × Fin 256,
      drawRowsGo s ir dx dy n disp vf j fuel = some dv ∧
      (∀ t i, j ≤ t → t < j + fuel → t < n → dy + t < 32 → i < 8 → dx + i < 64 →
        dv.1 (dx + i) (dy + t) =
          xor (disp (dx + i) (dy + t)) (spriteBit (s.mem (ir + t)).val i == 1)) ∧
      (∀ a b', (∀ t i, j ≤ t → t < j + fuel → t < n → dy + t < 32 → i < 8 → dx + i < 64 →
          ¬(a = dx + i ∧ b' = dy + t)) →
        dv.1 a b' = disp a b') ∧
      ((∃ t i, j ≤ t ∧ t < j + fuel ∧ t < n ∧ dy + t < 32 ∧ i < 8 ∧ dx + i < 64 ∧
          disp (dx + i) (dy + t) = true ∧ spriteBit (s.mem (ir + t)).val i = 1) →
        dv.2 = 1) ∧
      ((¬ ∃ t i, j ≤ t ∧ t < j + fuel ∧ t < n ∧ dy + t < 32 ∧ i < 8 ∧ dx + i < 64 ∧
          disp (dx + i) (dy + t) = true ∧ spriteBit (s.mem (ir + t)).val i = 1) →
        dv.2 = vf) := by
  intro fuel
  induction fuel with
  | zero =>
    intro j disp vf _
    refine ⟨(disp, vf), rfl, fun t i h1 h2 => absurd h2 (by omega),
      fun a b' _ => rfl, ?_, fun _ => rfl⟩
    rintro ⟨t, i, h1, h2, -⟩
    exact absurd h2 (by omega)
  | succ f ih =>
    intro j disp vf hmem
    unfold drawRowsGo
    by_cases hg : j < n ∧ dy + j < 32
    · rw [if_pos hg, readMem_of_lt s _ (hmem j le_rfl (by omega) hg.1 hg.2)]
      simp only [Option.some_bind]
      obtain ⟨colA, colB, colC, colD⟩ :=
        drawRowGo_spec dx (dy + j) (s.mem (ir + j)).val 8 0 disp vf
      obtain ⟨dv, heq, ihA, ihB, ihC, ihD⟩ := ih (j + 1)
        (drawRowGo dx (dy + j) (s.mem (ir + j)).val disp vf 0 8).1
        (drawRowGo dx (dy + j) (s.mem (ir + j)).val disp vf 0 8).2
        (fun t h1 h2 h3 h4 => hmem t (by omega) (by omega) h3 h4)
      have hrowframe : ∀ t i, j + 1 ≤ t →
          (drawRowGo dx (dy + j) (s.mem (ir + j)).val disp vf 0 8).1 (dx + i) (dy + t) =
            disp (dx + i) (dy + t) := by
        intro t i ht
        exact colB (dx + i) (dy + t) (fun hb => absurd hb (by omega))
      refine ⟨dv, heq, ?_, ?_, ?_, ?_⟩
      · intro t i ht1 ht2 ht3 ht4 hi1 hi2
        rcases Nat.eq_or_lt_of_le ht1 with heq2 | hti
        · subst heq2
          rw [ihB (dx + i) (dy + j) (fun t' i' h1' _ _ _ _ _ => by
            rintro ⟨-, hb⟩
            omega)]
          exact colA i (Nat.zero_le i) (by omega) hi1 hi2
        · rw [ihA t i (by omega) (by omega) ht3 ht4 hi1 hi2, hrowframe t i (by omega)]
      · intro a b' h
        rw [ihB a b' (fun t' i' h1' h2' h3' h4' h5' h6' =>
          h t' i' (by omega) (by omega) h3' h4' h5' h6')]
        refine colB a b' (fun hb t' h1' h2' h3' h4' => ?_)
        intro ha
        exact h j t' le_rfl (by omega) hg.1 hg.2 h3' h4' ⟨ha, hb⟩
      · rintro ⟨t, i, ht1, ht2, ht3, ht4, hi1, hi2, hd, hbit⟩
        by_cases hcj : ∃ t', 0 ≤ t' ∧ t' < 0 + 8 ∧ t' < 8 ∧ dx + t' < 64 ∧
            disp (dx + t') (dy + j) = true ∧ spriteBit (s.mem (ir + j)).val t' = 1
        · by_cases hlater : ∃ t' i', j + 1 ≤ t' ∧ t' < j + 1 + f ∧ t' < n ∧ dy + t' < 32 ∧
              i' < 8 ∧ dx + i' < 64 ∧
              (drawRowGo dx (dy + j) (s.mem (ir + j)).val disp vf 0 8).1
                (dx + i') (dy + t') = true ∧
              spriteBit (s.mem (ir + t')).val i' = 1
          · exact ihC hlater
          · rw [ihD hlater]
            exact colC hcj
        · have hti : j + 1 ≤ t := by
            rcases Nat.eq_or_lt_of_le ht1 with heq2 | h'
            · subst heq2
              exact absurd ⟨i, Nat.zero_le i, by omega, hi1, hi2, hd, hbit⟩ hcj
            · omega
          refine ihC ⟨t, i, hti, by omega, ht3, ht4, hi1, hi2, ?_, hbit⟩
          rw [hrowframe t i hti]
          exact hd
      · intro hno
        have hcj : ¬ ∃ t', 0 ≤ t' ∧ t' < 0 + 8 ∧ t' < 8 ∧ dx + t' < 64 ∧
            disp (dx + t') (dy + j) = true ∧ spriteBit (s.mem (ir + j)).val t' = 1 := by
          rintro ⟨t', -, -, h3', h4', h5', h6'⟩
          exact hno ⟨j, t', le_rfl, by omega, hg.1, hg.2, h3', h4', h5', h6'⟩
        have hlater : ¬ ∃ t' i', j + 1 ≤ t' ∧ t' < j + 1 + f ∧ t' < n ∧ dy + t' < 32 ∧
            i' < 8 ∧ dx + i' < 64 ∧
            (drawRowGo dx (dy + j) (s.mem (ir + j)).val disp vf 0 8).1
              (dx + i') (dy + t') = true ∧
            spriteBit (s.mem (ir + t')).val i' = 1 := by
          rintro ⟨t', i', h1', h2', h3', h4', h5', h6', h7', h8'⟩
          rw [hrowframe t' i' h1'] at h7'
          exact hno ⟨t', i', by omega, by omega, h3', h4', h5', h6', h7', h8'⟩
        rw [ihD hlater]
        exact colD hcj
    · rw [if_neg hg]
      refine ⟨(disp, vf), rfl,
        fun t i h1 h2 h3 h4 => absurd (show j < n ∧ dy + j < 32 by omega) hg,
        fun a b' _ => rfl, ?_, fun _ => rfl⟩
      rintro ⟨t, i, h1, h2, h3, h4, -⟩
      exact absurd (show j < n ∧ dy + j < 32 by omega) hg

/-- C5: for every state and draw instruction `DXYN` (with the sprite rows
in bounds of memory): the anchor `(Vx mod 64, Vy mod 32)` is computed once
from the pre-instruction registers; each drawn row `j` is read from
`memory[index_register + j]`; bits are XORed into the display only while
`anchor_x + i < 64` and `anchor_y + j < 32` (pixels falling outside are
clipped — every other display cell is unchanged, i.e. nothing wraps);
`VF` is reset to 0 before the loop and ends 1 exactly when some drawn bit
and the corresponding existing display cell are both set (never cleared
once set, 0 otherwise). -/
theorem c5_draw_sprite_clipped (rnd : Nat) (s : Chip8State) (w x y n : Nat)
    (hw : fetchWord s = w)
    (hpc : s.program_counter.val ≤ 4094)
    (hop : w >>> 12 = 0xD)
    (hx : (w &&& 0x0F00) >>> 8 = x)
    (hy : (w &&& 0x00F0) >>> 4 = y)
    (hn : w &&& 0x000F = n)
    (hb : s.index_register.val + min n (32 - (s.V y).val % 32) ≤ 4096) :
    ∃ disp' vf',
      step rnd s = some (.ok { s with
        display := disp',
        V := Function.update (Function.update s.V 0xF 0) 0xF vf',
        program_counter := toU16 (s.program_counter.val + 2) }) ∧
      (∀ j i, j < n → (s.V y).val % 32 + j < 32 → i < 8 → (s.V x).val % 64 + i < 64 →
        disp' ((s.V x).val % 64 + i) ((s.V y).val % 32 + j) =
          xor (s.display ((s.V x).val % 64 + i) ((s.V y).val % 32 + j))
            (spriteBit (s.mem (s.index_register.val + j)).val i == 1)) ∧
      (∀ a b, (∀ j i, j < n → (s.V y).val % 32 + j < 32 → i < 8 → (s.V x).val % 64 + i < 64 →
          ¬(a = (s.V x).val % 64 + i ∧ b = (s.V y).val % 32 + j)) →
        disp' a b = s.display a b) ∧
      ((∃ j i, j < n ∧ (s.V y).val % 32 + j < 32 ∧ i < 8 ∧ (s.V x).val % 64 + i < 64 ∧
          s.display ((s.V x).val % 64 + i) ((s.V y).val % 32 + j) = true ∧
          spriteBit (s.mem (s.index_register.val + j)).val i = 1) →
        vf' = 1) ∧
      ((¬ ∃ j i, j < n ∧ (s.V y).val % 32 + j < 32 ∧ i < 8 ∧ (s.V x).val % 64 + i < 64 ∧
          s.display ((s.V x).val % 64 + i) ((s.V y).val % 32 + j) = true ∧
          spriteBit (s.mem (s.index_register.val + j)).val i = 1) →
        vf' = 0) := by
  unfold fetchWord at hw
  unfold step readMem
  rw [if_pos (by omega), if_pos (by omega)]
  simp only [Option.some_bind]
  rw [hw, hop, hx, hy, hn]
  dsimp only
  have hdy : (s.V y).val % 32 < 32 := Nat.mod_lt _ (by decide)
  obtain ⟨dv, heq, hA, hB, hC, hD⟩ :=
    drawRowsGo_spec { s with program_counter := toU16 (s.program_counter.val + 2) }
      s.index_register.val ((s.V x).val % 64) ((s.V y).val % 32) n
      n 0 s.display 0 (fun t _ _ h3 h4 => by omega)
  rw [heq]
  simp only [Option.some_bind]
  refine ⟨dv.1, dv.2, rfl, ?_, ?_, ?_, ?_⟩
  · intro j i h1 h2 h3 h4
    exact hA j i (Nat.zero_le j) (by omega) h1 h2 h3 h4
  · intro a b h
    exact hB a b fun t i h1 h2 h3 h4 h5 h6 => h t i h3 h4 h5 h6
  · rintro ⟨j, i, h1, h2, h3, h4, h5, h6⟩
    exact hC ⟨j, i, Nat.zero_le j, by omega, h1, h2, h3, h4, h5, h6⟩
  · intro h
    exact hD fun hex => h (by
      obtain ⟨t, i, h1, h2, h3, h4, h5, h6, h7, h8⟩ := hex
      exact ⟨t, i, h3, h4, h5, h6, h7, h8⟩)

/-- C5 witness: drawing 5 rows of the `0` glyph (`F0 90 90 90 F0`) from
`I = 0x50` at anchor `(10, 3)` on an empty display sets the top-left glyph
pixel, leaves `(14, 3)` clear (bit 4 of `F0` is 0), and reports no
collision. -/
theorem c5_draw_sprite_clipped_witness :
    ∃ disp' vf',
      step 0 c5State = some (.ok { c5State with
        display := disp',
        V := Function.update (Function.update c5State.V 0xF 0) 0xF vf',
        program_counter := toU16 0x202 }) ∧
      disp' 10 3 = true ∧ disp' 14 3 = false ∧ vf' = 0 := by
  obtain ⟨disp', vf', hstep, hA, hB, hC, hD⟩ :=
    c5_draw_sprite_clipped 0 c5State 0xD125 1 2 5 (by decide) (by decide) (by decide)
      (by decide) (by decide) (by decide) (by decide)
  refine ⟨disp', vf', hstep, ?_, ?_, ?_⟩
  · have h := hA 0 0 (by decide) (by decide) (by decide) (by decide)
    rw [show (c5State.V 1).val % 64 + 0 = 10 from by decide,
        show (c5State.V 2).val % 32 + 0 = 3 from by decide] at h
    rw [h]
    decide
  · have h := hA 0 4 (by decide) (by decide) (by decide) (by decide)
    rw [show (c5State.V 1).val % 64 + 4 = 14 from by decide,
        show (c5State.V 2).val % 32 + 0 = 3 from by decide] at h
    rw [h]
    decide
  · refine hD ?_
    rintro ⟨j, i, h1, h2, h3, h4, h5, h6⟩
    simp [c5State, baseState] at h5

theorem writeMem_eq_some (s : Chip8State) (i : Nat) (v : Fin 256) (s' : Chip8State)
    (h : writeMem s i v = some s') :
    s' = { s with mem := Function.update s.mem i v } := by
  unfold writeMem at h
  split at h
  · exact (Option.some_inj.mp h).symm
  · exact absurd h (by simp)

theorem storeRegsGo_pc (ir x : Nat) :
    ∀ fuel i s s', storeRegsGo s ir x i fuel = some s' →
      s'.program_counter = s.program_counter := by
  intro fuel
  induction fuel with
  | zero =>
    intro i s s' h
    cases Option.some_inj.mp h
    rfl
  | succ f ih =>
    intro i s s' h
    unfold storeRegsGo at h
    split at h
    · rcases Option.bind_eq_some.mp h with ⟨sA, hA, hrec⟩
      rw [writeMem_eq_some s _ _ sA hA] at hrec
      have h2 := ih (i + 1) _ s' hrec
      exact h2
    · cases Option.some_inj.mp h
      rfl

theorem loadRegsGo_pc (ir x : Nat) :
    ∀ fuel i s s', loadRegsGo s ir x i fuel = some s' →
      s'.program_counter = s.program_counter := by
  intro fuel
  induction fuel with
  | zero =>
    intro i s s' h
    cases Option.some_inj.mp h
    rfl
  | succ f ih =>
    intro i s s' h
    unfold loadRegsGo at h
    split at h
    · rcases Option.bind_eq_some.mp h with ⟨v, _, hrec⟩
      have h2 := ih (i + 1) _ s' hrec
      exact h2
    · cases Option.some_inj.mp h
      rfl

/-- C6 counterexample: the code does not keep `program_counter` even:
instruction `1201` (jump to `0x201`) makes the program counter odd. -/
theorem c6_pc_alignment_counterexample :
    (step 0 c6State).map (fun r => r.state.program_counter.val) = some 0x201 ∧
    0x201 % 2 = 1 := by
  decide

/-- C6 (amended): from a state with an even program counter at most 4090,
every instruction *except* the jump/call/return family (`1NNN`, `2NNN`,
`BNNN`, `00EE`) leaves the program counter even and within `[0, 4094]`
(it becomes pre+0, pre+2 or pre+4).  The excluded opcodes load an
arbitrary 12-bit, `Vx + NNN`, or popped target, which the code does not
align or bound — e.g. `1201` sets the odd value `0x201` — so the claimed
invariant does not hold for every instruction. -/
theorem c6_pc_alignment_amended (rnd : Nat) (s : Chip8State) (w : Nat)
    (hw : fetchWord s = w)
    (hpc : s.program_counter.val ≤ 4090)
    (heven : s.program_counter.val % 2 = 0)
    (h1 : w >>> 12 ≠ 0x1)
    (h2 : w >>> 12 ≠ 0x2)
    (hB : w >>> 12 ≠ 0xB)
    (hEE : ¬(w >>> 12 = 0x0 ∧ w &&& 0x0FFF = 0x0EE)) :
    ∀ r, step rnd s = some r →
      r.state.program_counter.val % 2 = 0 ∧ r.state.program_counter.val ≤ 4094 := by
  intro r hr
  unfold fetchWord at hw
  unfold step readMem at hr
  rw [if_pos (by omega), if_pos (by omega)] at hr
  simp only [Option.some_bind] at hr
  rw [hw] at hr
  split at hr
  -- 0x0
  case _ heq =>
    split at hr
    · cases Option.some_inj.mp hr
      simp only [StepResult.state, toU16_val]
      omega
    · exact absurd ⟨heq, by assumption⟩ hEE
    · cases Option.some_inj.mp hr
      simp only [StepResult.state, toU16_val]
      omega
  -- 0x1
  case _ heq => exact absurd heq h1
  -- 0x2
  case _ heq => exact absurd heq h2
  -- 0x3, 0x4, 0x5, 0x9 (skips)
  case _ =>
    split at hr <;> (cases Option.some_inj.mp hr; simp only [StepResult.state, toU16_val]; omega)
  case _ =>
    split at hr <;> (cases Option.some_inj.mp hr; simp only [StepResult.state, toU16_val]; omega)
  case _ =>
    split at hr <;> (cases Option.some_inj.mp hr; simp only [StepResult.state, toU16_val]; omega)
  case _ =>
    split at hr <;> (cases Option.some_inj.mp hr; simp only [StepResult.state, toU16_val]; omega)
  -- 0x6, 0x7
  case _ =>
    cases Option.some_inj.mp hr
    simp only [StepResult.state, toU16_val]
    omega
  case _ =>
    cases Option.some_inj.mp hr
    simp only [StepResult.state, toU16_val]
    omega
  -- 0x8 (ALU family)
  case _ =>
    split at hr <;> (cases Option.some_inj.mp hr; simp only [StepResult.state, toU16_val]; omega)
  -- 0xA
  case _ =>
    cases Option.some_inj.mp hr
    simp only [StepResult.state, toU16_val]
    omega
  -- 0xB
  case _ heq => exact absurd heq hB
  -- 0xC
  case _ =>
    cases Option.some_inj.mp hr
    simp only [StepResult.state, toU16_val]
    omega
  -- 0xD
  case _ =>
    rcases Option.bind_eq_some.mp hr with ⟨dv, _, hok⟩
    cases Option.some_inj.mp hok
    simp only [StepResult.state, toU16_val]
    omega
  -- 0xE
  case _ =>
    split at hr <;>
      first
      | (split at hr <;> (cases Option.some_inj.mp hr; simp only [StepResult.state, toU16_val]; omega))
      | (cases Option.some_inj.mp hr; simp only [StepResult.state, toU16_val]; omega)
  -- 0xF
  case _ =>
    split at hr
    -- 0x07, 0x15, 0x18, 0x1E
    · cases Option.some_inj.mp hr
      simp only [StepResult.state, toU16_val]
      omega
    · cases Option.some_inj.mp hr
      simp only [StepResult.state, toU16_val]
      omega
    · cases Option.some_inj.mp hr
      simp only [StepResult.state, toU16_val]
      omega
    · cases Option.some_inj.mp hr
      simp only [StepResult.state, toU16_val]
      omega
    -- 0x0A
    · split at hr <;> (cases Option.some_inj.mp hr; simp only [StepResult.state, toU16_val]; omega)
    -- 0x29
    · cases Option.some_inj.mp hr
      simp only [StepResult.state, toU16_val]
      omega
    -- 0x33
    · rcases Option.bind_eq_some.mp hr with ⟨sA, hA, hr2⟩
      rcases Option.bind_eq_some.mp hr2 with ⟨sB, hB2, hr3⟩
      rcases Option.bind_eq_some.mp hr3 with ⟨sC, hC2, hok⟩
      rw [writeMem_eq_some _ _ _ _ hA] at hB2
      rw [writeMem_eq_some _ _ _ _ hB2] at hC2
      rw [writeMem_eq_some _ _ _ _ hC2] at hok
      cases Option.some_inj.mp hok
      simp only [StepResult.state, toU16_val]
      omega
    -- 0x55
    · rcases Option.bind_eq_some.mp hr with ⟨sA, hA, hok⟩
      cases Option.some_inj.mp hok
      have hpcA := storeRegsGo_pc _ _ _ _ _ _ hA
      simp only [StepResult.state]
      rw [hpcA]
      simp only [toU16_val]
      omega
    -- 0x65
    · rcases Option.bind_eq_some.mp hr with ⟨sA, hA, hok⟩
      cases Option.some_inj.mp hok
      have hpcA := loadRegsGo_pc _ _ _ _ _ _ hA
      simp only [StepResult.state]
      rw [hpcA]
      simp only [toU16_val]
      omega
    -- default
    · cases Option.some_inj.mp hr
      simp only [StepResult.state, toU16_val]
      omega
  -- default
  case _ =>
    cases Option.some_inj.mp hr
    simp only [StepResult.state, toU16_val]
    omega

/-- C6 witness: stepping `baseState` (word `0000`, unknown instruction,
an excluded-family-free opcode) yields a result whose program counter is
`0x202`: even and within bounds. -/
theorem c6_pc_alignment_witness :
    (StepResult.fatal (.unknownInstruction 0 0x202)
        { baseState with program_counter := toU16 0x202 }).state.program_counter.val % 2 = 0 ∧
    (StepResult.fatal (.unknownInstruction 0 0x202)
        { baseState with program_counter := toU16 0x202 }).state.program_counter.val ≤ 4094 := by
  exact c6_pc_alignment_amended 0 baseState 0 (by decide) (by decide) (by decide)
    (by decide) (by decide) (by decide) (by decide) _ rfl

theorem storeRegsGo_isSome (ir x : Nat) :
    ∀ fuel i s, (∀ t, i ≤ t → t ≤ x → ir + t < 4096) →
      (storeRegsGo s ir x i fuel).isSome = true := by
  intro fuel
  induction fuel with
  | zero => intro i s _; rfl
  | succ f ih =>
    intro i s h
    unfold storeRegsGo
    by_cases hi : i ≤ x
    · rw [if_pos hi]
      unfold writeMem
      rw [if_pos (h i le_rfl hi)]
      simp only [Option.some_bind]
      exact ih (i + 1) _ fun t h1 h2 => h t (by omega) h2
    · rw [if_neg hi]
      rfl

theorem loadRegsGo_isSome (ir x : Nat) :
    ∀ fuel i s, (∀ t, i ≤ t → t ≤ x → ir + t < 4096) →
      (loadRegsGo s ir x i fuel).isSome = true := by
  intro fuel
  induction fuel with
  | zero => intro i s _; rfl
  | succ f ih =>
    intro i s h
    unfold loadRegsGo
    by_cases hi : i ≤ x
    · rw [if_pos hi]
      unfold readMem
      rw [if_pos (h i le_rfl hi)]
      simp only [Option.some_bind]
      exact ih (i + 1) _ fun t h1 h2 => h t (by omega) h2
    · rw [if_neg hi]
      rfl

/-- C10: no memory access inside one step is bounds-checked; all accesses
of one step — the 2-byte fetch at `program_counter`, the sprite-row reads
at `index_register + j` in `DXYN`, and the reads/writes at
`index_register + i` in `FX33`/`FX55`/`FX65` — stay inside the 4096-byte
array exactly under the precondition `program_counter ≤ 4094` and
`index_register + accessSpan ≤ 4096`: under it the out-of-range branch of
the Option-indexed embedding is unreachable (`step` returns `some`), and
without it an access falls outside memory (`step` returns `none`, e.g.
`FX33` with `index_register = 4094`). -/
theorem c10_memory_access_bounds :
    (∀ rnd s, s.program_counter.val ≤ 4094 →
      s.index_register.val + accessSpan s ≤ 4096 →
      (step rnd s).isSome = true) ∧
    step 0 c10BadState = none := by
  constructor
  · intro rnd s hpc hspan
    simp only [accessSpan] at hspan
    unfold step readMem
    rw [if_pos (by omega), if_pos (by omega)]
    simp only [Option.some_bind]
    generalize hW : (s.mem s.program_counter.val).val <<< 8 |||
      (s.mem (s.program_counter.val + 1)).val = W at hspan ⊢
    split
    -- 0x0
    case _ => split <;> first | rfl | (split <;> rfl)
    -- 0x1
    case _ => rfl
    -- 0x2
    case _ => split <;> rfl
    -- 0x3, 0x4, 0x5, 0x9
    case _ => split <;> rfl
    case _ => split <;> rfl
    case _ => split <;> rfl
    case _ => split <;> rfl
    -- 0x6, 0x7
    case _ => rfl
    case _ => rfl
    -- 0x8
    case _ => split <;> rfl
    -- 0xA
    case _ => rfl
    -- 0xB
    case _ => rfl
    -- 0xC
    case _ => rfl
    -- 0xD
    case _ heq =>
      rw [if_pos heq] at hspan
      try dsimp only
      obtain ⟨dv, heqd, -⟩ :=
        drawRowsGo_spec { s with program_counter := toU16 (s.program_counter.val + 2) }
          s.index_register.val ((s.V ((W &&& 0x0F00) >>> 8)).val % 64)
          ((s.V ((W &&& 0x00F0) >>> 4)).val % 32) (W &&& 0x000F)
          (W &&& 0x000F) 0 s.display 0 (fun t ht1 ht2 h3 h4 => by
            have hdy : (s.V ((W &&& 0x00F0) >>> 4)).val % 32 < 32 :=
              Nat.mod_lt _ (by decide)
            omega)
      rw [heqd]
      rfl
    -- 0xE
    case _ => split <;> first | rfl | (split <;> rfl)
    -- 0xF
    case _ heq =>
      rw [if_neg (by omega), if_pos heq] at hspan
      split
      -- 0x07, 0x15, 0x18, 0x1E
      case _ => rfl
      case _ => rfl
      case _ => rfl
      case _ => rfl
      -- 0x0A
      case _ => split <;> rfl
      -- 0x29
      case _ => rfl
      -- 0x33
      case _ heq2 =>
        rw [if_pos heq2] at hspan
        unfold writeMem
        try dsimp only
        rw [if_pos (by omega)]
        simp only [Option.some_bind]
        try dsimp only
        rw [if_pos (by omega)]
        simp only [Option.some_bind]
        try dsimp only
        rw [if_pos (by omega)]
        simp only [Option.some_bind]
        rfl
      -- 0x55
      case _ heq2 =>
        rw [if_neg (by omega), if_pos (Or.inl heq2)] at hspan
        try dsimp only
        rcases Option.isSome_iff_exists.mp
          (storeRegsGo_isSome s.index_register.val ((W &&& 0x0F00) >>> 8)
            ((W &&& 0x0F00) >>> 8 + 1) 0
            { s with program_counter := toU16 (s.program_counter.val + 2) }
            (fun t ht1 ht2 => by omega)) with ⟨s', hs'⟩
        rw [hs']
        rfl
      -- 0x65
      case _ heq2 =>
        rw [if_neg (by omega), if_pos (Or.inr heq2)] at hspan
        try dsimp only
        rcases Option.isSome_iff_exists.mp
          (loadRegsGo_isSome s.index_register.val ((W &&& 0x0F00) >>> 8)
            ((W &&& 0x0F00) >>> 8 + 1) 0
            { s with program_counter := toU16 (s.program_counter.val + 2) }
            (fun t ht1 ht2 => by omega)) with ⟨s', hs'⟩
        rw [hs']
        rfl
      -- default
      case _ => rfl
    -- default
    case _ => rfl
  · rfl

/-- C10 witness: `c5State` (a `DXYN` draw with `pc = 0x200` and
`index_register + span = 0x55 ≤ 4096`) satisfies the precondition, and its
step indeed stays in bounds. -/
theorem c10_memory_access_bounds_witness :
    (step 0 c5State).isSome = true :=
  c10_memory_access_bounds.1 0 c5State (by decide) (by decide)
